import Mathlib

/-!
A shallow embedding of the `get-chucked` Flask application (src/app.py,
src/models.py): an authenticated per-user joke store with idempotent
ingestion from an external joke API. Request handlers are modelled as
pure functions from an explicit database state (plus the decoded request
data and, where relevant, the observed upstream response) to a response,
the post state, and a trace of repository/gateway accesses in program
order. Password hashing (werkzeug) is abstracted as explicit function
parameters `hash` and `checkHash`.
-/

namespace GetChucked

/-- Model of `models.User`: integer surrogate key, unique username, and a
derived password hash (the output of the abstract hash function). -/
structure User where
  id : Nat
  username : String
  password_hash : String
deriving DecidableEq, Repr

/-- Model of `models.Joke`: `joke_id` is the external API id (null for
user-submitted jokes), `user_id` the nullable owner reference. `value`
is `Option String` because the handler stores `data.get("value")`
verbatim; `created_at` is an abstract clock value. -/
structure Joke where
  id : Nat
  joke_id : Option String
  value : Option String
  category : Option String
  created_at : Nat
  user_id : Option Nat
deriving DecidableEq, Repr

/-- The persisted database state plus the autoincrement counters and the
current clock used for `created_at`. -/
structure State where
  users : List User
  jokes : List Joke
  nextUserId : Nat
  nextJokeId : Nat
  now : Nat
deriving DecidableEq, Repr

/-- Model of `User.query.filter_by(username=...).first()`. -/
def findUserByName (st : State) (u : String) : Option User :=
  st.users.find? (fun x => x.username == u)

/-- Model of `db.session.get(User, user_id)` (primary-key lookup). -/
def sessionGetUser (st : State) (uid : Nat) : Option User :=
  st.users.find? (fun x => x.id == uid)

/-- Model of `Joke.query.get(joke_id)` / `db.session.get(Joke, id)`. -/
def queryGetJoke (st : State) (jid : Nat) : Option Joke :=
  st.jokes.find? (fun j => j.id == jid)

/-- Serialized joke record, as produced by `Joke.to_dict`. -/
structure JokeDict where
  id : Nat
  joke_id : Option String
  value : Option String
  category : Option String
  created_at : Nat
  user : Option String
deriving DecidableEq, Repr

/-- Model of `Joke.to_dict`: the `user` field resolves the backref
`self.author` (the user row referenced by `user_id`, if any). -/
def Joke.to_dict (users : List User) (j : Joke) : JokeDict :=
  { id := j.id
    joke_id := j.joke_id
    value := j.value
    category := j.category
    created_at := j.created_at
    user := ((j.user_id.bind (fun uid => users.find? (fun x => x.id == uid))).map
      (fun x => x.username)) }

/-- Response bodies produced by the handlers. -/
inductive Body where
  | error (msg : String)
  | message (msg : String)
  | jokeRec (d : JokeDict)
  | jokeList (l : List JokeDict)
  | accessToken (t : String)
  | catList (l : List String)
deriving DecidableEq, Repr

/-- An HTTP response: body plus status code. -/
structure Response where
  body : Body
  status : Nat
deriving DecidableEq, Repr

/-- Observable repository/gateway accesses, recorded in program order. -/
inductive Event where
  | userRead
  | userWrite
  | jokeRead
  | jokeWrite
  | extFetch
deriving DecidableEq, Repr

/-- Result of one request: response, post state, access trace. -/
structure HandlerResult where
  resp : Response
  st : State
  trace : List Event
deriving DecidableEq, Repr

/-- A presented session token. `invalid` covers every way
`flask_jwt_extended` rejects a request (missing header, bad signature,
malformed token, expiry); `valid` carries the subject claim string. -/
inductive Token where
  | invalid
  | valid (sub : String)
deriving DecidableEq, Repr

/-- Models the 401 response emitted by `@jwt_required()` when the token
is missing or fails verification. -/
def jwtErrorResponse : Response :=
  { body := Body.error "unauthorized", status := 401 }

/-- Models `flask.abort(code)` inside a handler. -/
def abortResponse (code : Nat) : Response :=
  { body := Body.error "abort", status := code }

/-- Truthiness test used by `require_fields`: `data.get(f)` is falsy when
the field is absent or the empty string. -/
def fieldPresent (v : Option String) : Bool :=
  match v with
  | some s => !(s == "")
  | none => false

/-- Names of the missing fields, in declaration order, for the
`require_fields` error message. -/
def missingOf (data : List (String × Option String)) : List String :=
  (data.filter (fun p => !fieldPresent p.2)).map (fun p => p.1)

/-- The 400 response built by `require_fields`. -/
def missingResponse (data : List (String × Option String)) : Response :=
  { body := Body.error ("missing field(s): " ++ String.intercalate ", " (missingOf data))
    status := 400 }

/-- Decimal value of a digit character, `none` on a non-digit. -/
def digitVal (c : Char) : Option Nat :=
  if c.isDigit then some (c.toNat - 48) else none

/-- Accumulating parser over the characters of the subject claim. -/
def parseDigits : List Char → Nat → Option Nat
  | [], acc => some acc
  | c :: cs, acc =>
    match digitVal c with
    | some d => parseDigits cs (acc * 10 + d)
    | none => none

/-- Model of `int(identity)` in `current_user`: the subject claim parses
as a user id exactly when it is a nonempty string of decimal digits
(`TypeError`/`ValueError` become `none`). -/
def parseIdentity (s : String) : Option Nat :=
  match s.data with
  | [] => none
  | c :: cs => parseDigits (c :: cs) 0

/-- Model of `current_user`: parse the subject claim as an integer, then
look the user up; `none` corresponds to `abort(401)`. -/
def current_user (st : State) (sub : String) : Option User :=
  match parseIdentity sub with
  | none => none
  | some uid => sessionGetUser st uid

/-- The trace of `current_user`: the user table is read only when the
subject parses as an integer. -/
def resolveTrace (sub : String) : List Event :=
  match parseIdentity sub with
  | none => []
  | some _ => [Event.userRead]

/-- Model of the `@jwt_required()` guard: rejected tokens short-circuit
with 401 before the wrapped handler runs. -/
def withJwt (st : State) (tok : Token) (handler : String → HandlerResult) : HandlerResult :=
  match tok with
  | Token.valid sub => handler sub
  | Token.invalid => { resp := jwtErrorResponse, st := st, trace := [] }

/-- Model of `POST /auth/register`. -/
def register (hash : String → String) (st : State)
    (username password : Option String) : HandlerResult :=
  if fieldPresent username && fieldPresent password then
    let u := username.getD ""
    let p := password.getD ""
    match findUserByName st u with
    | some _ =>
      { resp := { body := Body.error "username already exists", status := 400 }
        st := st, trace := [Event.userRead] }
    | none =>
      let user : User := { id := st.nextUserId, username := u, password_hash := hash p }
      { resp := { body := Body.message ("user " ++ u ++ " created"), status := 201 }
        st := { st with users := st.users ++ [user], nextUserId := st.nextUserId + 1 }
        trace := [Event.userRead, Event.userWrite] }
  else
    { resp := missingResponse [("username", username), ("password", password)]
      st := st, trace := [] }

/-- Model of `POST /auth/login`. -/
def login (checkHash : String → String → Bool) (st : State)
    (username password : Option String) : HandlerResult :=
  if fieldPresent username && fieldPresent password then
    let u := username.getD ""
    let p := password.getD ""
    match findUserByName st u with
    | none =>
      { resp := { body := Body.error "invalid credentials", status := 401 }
        st := st, trace := [Event.userRead] }
    | some user =>
      if checkHash user.password_hash p then
        { resp := { body := Body.accessToken (toString user.id), status := 200 }
          st := st, trace := [Event.userRead] }
      else
        { resp := { body := Body.error "invalid credentials", status := 401 }
          st := st, trace := [Event.userRead] }
  else
    { resp := missingResponse [("username", username), ("password", password)]
      st := st, trace := [] }

/-- Model of `GET /jokes`: all jokes whose `user_id` equals the caller
id, serialized. -/
def list_jokes (st : State) (tok : Token) : HandlerResult :=
  withJwt st tok (fun sub =>
    match current_user st sub with
    | none => { resp := abortResponse 401, st := st, trace := resolveTrace sub }
    | some user =>
      let dicts := (st.jokes.filter (fun j => j.user_id == some user.id)).map
        (Joke.to_dict st.users)
      { resp := { body := Body.jokeList dicts, status := 200 }
        st := st, trace := resolveTrace sub ++ [Event.jokeRead] })

/-- Model of `GET /jokes/:id`: absence and ownership mismatch both
produce the same 404. -/
def get_joke (st : State) (tok : Token) (joke_id : Nat) : HandlerResult :=
  withJwt st tok (fun sub =>
    match current_user st sub with
    | none => { resp := abortResponse 401, st := st, trace := resolveTrace sub }
    | some user =>
      match queryGetJoke st joke_id with
      | none =>
        { resp := { body := Body.error "joke not found", status := 404 }
          st := st, trace := resolveTrace sub ++ [Event.jokeRead] }
      | some joke =>
        if joke.user_id == some user.id then
          { resp := { body := Body.jokeRec (joke.to_dict st.users), status := 200 }
            st := st, trace := resolveTrace sub ++ [Event.jokeRead] }
        else
          { resp := { body := Body.error "joke not found", status := 404 }
            st := st, trace := resolveTrace sub ++ [Event.jokeRead] })

/-- Model of `POST /jokes`: the body is validated before the user is
resolved; a custom joke has null `joke_id` and `category`. -/
def create_joke (st : State) (tok : Token) (value : Option String) : HandlerResult :=
  withJwt st tok (fun sub =>
    if fieldPresent value then
      match current_user st sub with
      | none => { resp := abortResponse 401, st := st, trace := resolveTrace sub }
      | some user =>
        let joke : Joke := { id := st.nextJokeId, joke_id := none, value := value
                             category := none, created_at := st.now
                             user_id := some user.id }
        { resp := { body := Body.jokeRec (joke.to_dict st.users), status := 201 }
          st := { st with jokes := st.jokes ++ [joke], nextJokeId := st.nextJokeId + 1 }
          trace := resolveTrace sub ++ [Event.jokeWrite] }
    else
      { resp := missingResponse [("value", value)], st := st, trace := [] })

/-- Model of `PUT /jokes/:id`. Note the source order: the joke is
fetched (and the 404 decided) before `current_user` runs; a null-owner
joke is updatable by any authenticated caller. -/
def update_joke (st : State) (tok : Token) (joke_id : Nat)
    (value : Option String) : HandlerResult :=
  withJwt st tok (fun sub =>
    match queryGetJoke st joke_id with
    | none =>
      { resp := { body := Body.error "joke not found", status := 404 }
        st := st, trace := [Event.jokeRead] }
    | some joke =>
      match current_user st sub with
      | none =>
        { resp := abortResponse 401, st := st
          trace := [Event.jokeRead] ++ resolveTrace sub }
      | some user =>
        if joke.user_id.isSome && !(joke.user_id == some user.id) then
          { resp := { body := Body.error "not authorised", status := 403 }
            st := st, trace := [Event.jokeRead] ++ resolveTrace sub }
        else if fieldPresent value then
          let joke' : Joke := { joke with value := value }
          let jokes' := st.jokes.map
            (fun j => if j.id == joke_id then { j with value := value } else j)
          { resp := { body := Body.jokeRec (joke'.to_dict st.users), status := 200 }
            st := { st with jokes := jokes' }
            trace := [Event.jokeRead] ++ resolveTrace sub ++ [Event.jokeWrite] }
        else
          { resp := missingResponse [("value", value)]
            st := st, trace := [Event.jokeRead] ++ resolveTrace sub })

/-- Model of `DELETE /jokes/:id`: same fetch-before-auth order and same
ownership policy as update. -/
def delete_joke (st : State) (tok : Token) (joke_id : Nat) : HandlerResult :=
  withJwt st tok (fun sub =>
    match queryGetJoke st joke_id with
    | none =>
      { resp := { body := Body.error "joke not found", status := 404 }
        st := st, trace := [Event.jokeRead] }
    | some joke =>
      match current_user st sub with
      | none =>
        { resp := abortResponse 401, st := st
          trace := [Event.jokeRead] ++ resolveTrace sub }
      | some user =>
        if joke.user_id.isSome && !(joke.user_id == some user.id) then
          { resp := { body := Body.error "not authorised", status := 403 }
            st := st, trace := [Event.jokeRead] ++ resolveTrace sub }
        else
          { resp := { body := Body.message "deleted", status := 200 }
            st := { st with jokes := st.jokes.filter (fun j => !(j.id == joke.id)) }
            trace := [Event.jokeRead] ++ resolveTrace sub ++ [Event.jokeWrite] })

/-- Outcome of one call to the external gateway: either the decoded
response, or any transport error, timeout, or non-success status. -/
inductive ExtResult (α : Type) where
  | ok (a : α)
  | fail
deriving DecidableEq, Repr

/-- The decoded upstream body of `GET /jokes/random`: every field is
read with `.get`, so each may be absent. -/
structure UpstreamRandom where
  id : Option String
  value : Option String
  categories : Option (List String)
deriving DecidableEq, Repr

/-- The normalized fields the handler extracts from the upstream body
(src/app.py lines 213-216): `category` is the first reported category,
absent when the list is missing or empty. -/
structure NormJoke where
  external_id : Option String
  value : Option String
  category : Option String
deriving DecidableEq, Repr

/-- Normalization of the upstream response performed by `random_joke`:
`cats = data.get("categories") or []; category = cats[0] if cats else None`. -/
def normalize_random (data : UpstreamRandom) : NormJoke :=
  { external_id := data.id
    value := data.value
    category := (data.categories.getD []).head? }

/-- Model of `GET /categories`: no user resolution, a single gateway
call, any failure collapsed to 502. -/
def categories (st : State) (tok : Token) (ext : ExtResult (List String)) : HandlerResult :=
  withJwt st tok (fun _sub =>
    match ext with
    | ExtResult.fail =>
      { resp := { body := Body.error "failed to fetch categories", status := 502 }
        st := st, trace := [Event.extFetch] }
    | ExtResult.ok cats =>
      { resp := { body := Body.catList cats, status := 200 }
        st := st, trace := [Event.extFetch] })

/-- Models the unhandled `IntegrityError` raised by `db.session.commit()`
when a row violates the `jokes.value` NOT NULL constraint (models.py):
Flask answers a generic 500 and nothing is persisted. -/
def integrityErrorResponse : Response :=
  { body := Body.error "internal server error", status := 500 }

set_option linter.unusedVariables false in
/-- Model of `GET /random`: resolve the user, call the gateway, then
dedup on `(joke_id, user_id)` — `filter_by(joke_id=None, ...)` matches
null rows — returning 200 on a hit and creating the row (201) on a
miss. When the upstream body has no value field the insert violates the
`jokes.value` NOT NULL constraint, so the commit raises and the request
ends 500 with nothing persisted. The `selected_category` parameter only
shapes the upstream request, which is abstracted by `ext`. -/
def random_joke (st : State) (tok : Token) (selected_category : Option String)
    (ext : ExtResult UpstreamRandom) : HandlerResult :=
  withJwt st tok (fun sub =>
    match current_user st sub with
    | none => { resp := abortResponse 401, st := st, trace := resolveTrace sub }
    | some user =>
      match ext with
      | ExtResult.fail =>
        let msg := "failed to fetch joke from external API"
        { resp := { body := Body.error msg, status := 502 }
          st := st, trace := resolveTrace sub ++ [Event.extFetch] }
      | ExtResult.ok data =>
        let norm := normalize_random data
        match st.jokes.find? (fun j =>
            j.joke_id == norm.external_id && j.user_id == some user.id) with
        | some existing =>
          { resp := { body := Body.jokeRec (existing.to_dict st.users), status := 200 }
            st := st
            trace := resolveTrace sub ++ [Event.extFetch, Event.jokeRead] }
        | none =>
          let joke : Joke := { id := st.nextJokeId, joke_id := norm.external_id
                               value := norm.value, category := norm.category
                               created_at := st.now, user_id := some user.id }
          match norm.value with
          | none =>
            { resp := integrityErrorResponse, st := st
              trace := resolveTrace sub ++ [Event.extFetch, Event.jokeRead] }
          | some _ =>
            { resp := { body := Body.jokeRec (joke.to_dict st.users), status := 201 }
              st := { st with jokes := st.jokes ++ [joke], nextJokeId := st.nextJokeId + 1 }
              trace := resolveTrace sub ++ [Event.extFetch, Event.jokeRead, Event.jokeWrite] })

/-- One request to any operation of the API surface, with its decoded
inputs (and the observed upstream response for the gateway-backed
operations). -/
inductive Request where
  | register (username password : Option String)
  | login (username password : Option String)
  | list_jokes (tok : Token)
  | get_joke (tok : Token) (joke_id : Nat)
  | create_joke (tok : Token) (value : Option String)
  | update_joke (tok : Token) (joke_id : Nat) (value : Option String)
  | delete_joke (tok : Token) (joke_id : Nat)
  | categories (tok : Token) (ext : ExtResult (List String))
  | random_joke (tok : Token) (selected_category : Option String)
      (ext : ExtResult UpstreamRandom)
deriving DecidableEq, Repr

/-- Dispatcher over the whole API surface. -/
def handle (hash : String → String) (checkHash : String → String → Bool)
    (st : State) : Request → HandlerResult
  | Request.register u p => register hash st u p
  | Request.login u p => login checkHash st u p
  | Request.list_jokes tok => list_jokes st tok
  | Request.get_joke tok i => get_joke st tok i
  | Request.create_joke tok v => create_joke st tok v
  | Request.update_joke tok i v => update_joke st tok i v
  | Request.delete_joke tok i => delete_joke st tok i
  | Request.categories tok ext => categories st tok ext
  | Request.random_joke tok c ext => random_joke st tok c ext

/-! ## Concrete fixtures used by the closed witness theorems -/

/-- A registered user with id 1. -/
def aliceU : User := { id := 1, username := "alice", password_hash := "h" }

/-- A registered user with id 2. -/
def bobU : User := { id := 2, username := "bob", password_hash := "h" }

/-- A joke owned by user 1. -/
def jokeOwned1 : Joke :=
  { id := 1, joke_id := none, value := some "j", category := none
    created_at := 0, user_id := some 1 }

/-- A legacy joke with no owner. -/
def jokeNullOwner : Joke :=
  { id := 1, joke_id := none, value := some "j", category := none
    created_at := 0, user_id := none }

/-- State where only bob exists but the stored joke belongs to user 1. -/
def stBob : State :=
  { users := [bobU], jokes := [jokeOwned1], nextUserId := 3, nextJokeId := 2, now := 0 }

/-- State where alice exists and the stored joke has a null owner. -/
def stNull : State :=
  { users := [aliceU], jokes := [jokeNullOwner], nextUserId := 2, nextJokeId := 2, now := 0 }

/-- State with one user and no jokes. -/
def stAlice : State :=
  { users := [aliceU], jokes := [], nextUserId := 2, nextJokeId := 1, now := 0 }

/-! ## Theorems -/

/-- C8: for every fetch_random call, the category field of the returned
normalized joke equals the first element of the upstream response's
reported category list when that list is non-empty, and is absent when
the upstream reports no categories or the field is missing. -/
theorem C8_normalized_category (data : UpstreamRandom) :
    (∀ c cs, data.categories = some (c :: cs) →
      (normalize_random data).category = some c)
    ∧ ((data.categories = none ∨ data.categories = some []) →
      (normalize_random data).category = none) := by
  constructor
  · intro c cs h
    simp [normalize_random, h]
  · rintro (h | h) <;> simp [normalize_random, h]

/-- Witness for C8 at a concrete upstream response. -/
theorem C8_normalized_category_witness :
    (normalize_random
      { id := some "x", value := some "v", categories := some ["dev", "k"] }).category
      = some "dev" :=
  (C8_normalized_category
    { id := some "x", value := some "v", categories := some ["dev", "k"] }).1
    "dev" ["k"] rfl

/-- C2: for an authenticated caller, get_joke answers 404 exactly when
no joke with the id exists or the stored owner is not the caller, and
every 404 is the same literal response, so absence and ownership
mismatch are indistinguishable. -/
theorem C2_get_notfound_isolation (st : State) (sub : String) (user : User)
    (i : Nat) (hauth : current_user st sub = some user) :
    ((get_joke st (Token.valid sub) i).resp.status = 404 ↔
      ¬ ∃ j, queryGetJoke st i = some j ∧ j.user_id = some user.id)
    ∧ ((get_joke st (Token.valid sub) i).resp.status = 404 →
      (get_joke st (Token.valid sub) i).resp =
        { body := Body.error "joke not found", status := 404 }) := by
  simp only [get_joke, withJwt]
  rw [hauth]
  cases hq : queryGetJoke st i with
  | none => simp [hq]
  | some j =>
    by_cases ho : j.user_id = some user.id
    · simp [hq, ho]
    · simp [hq, ho]

/-- Witness for C2: a caller asking for another user's joke gets the
same 404 as for an absent joke. -/
theorem C2_get_notfound_isolation_witness :
    (get_joke stBob (Token.valid "2") 1).resp =
      { body := Body.error "joke not found", status := 404 } :=
  (C2_get_notfound_isolation stBob "2" bobU 1 (by decide)).2 (by decide)

/-- C3: for an authenticated caller and a provided non-empty value,
update and delete answer 404 exactly on an absent joke id, 403 exactly
when the stored owner is non-null and differs from the caller, and
succeed with 200 exactly when the owner is null or the caller. -/
theorem C3_update_delete_ownership (st : State) (sub : String) (user : User)
    (i : Nat) (value : Option String)
    (hauth : current_user st sub = some user) (hv : fieldPresent value = true) :
    (((update_joke st (Token.valid sub) i value).resp.status = 404 ↔
        queryGetJoke st i = none)
      ∧ ((update_joke st (Token.valid sub) i value).resp.status = 403 ↔
        ∃ j, queryGetJoke st i = some j ∧ j.user_id ≠ none ∧ j.user_id ≠ some user.id)
      ∧ ((update_joke st (Token.valid sub) i value).resp.status = 200 ↔
        ∃ j, queryGetJoke st i = some j ∧ (j.user_id = none ∨ j.user_id = some user.id)))
    ∧ (((delete_joke st (Token.valid sub) i).resp.status = 404 ↔
        queryGetJoke st i = none)
      ∧ ((delete_joke st (Token.valid sub) i).resp.status = 403 ↔
        ∃ j, queryGetJoke st i = some j ∧ j.user_id ≠ none ∧ j.user_id ≠ some user.id)
      ∧ ((delete_joke st (Token.valid sub) i).resp.status = 200 ↔
        ∃ j, queryGetJoke st i = some j ∧ (j.user_id = none ∨ j.user_id = some user.id))) := by
  simp only [update_joke, delete_joke, withJwt]
  rw [hauth]
  cases hq : queryGetJoke st i with
  | none => simp [hq]
  | some j =>
    cases hj : j.user_id with
    | none => simp [hq, hj, hv]
    | some o =>
      by_cases ho : o = user.id
      · simp [hq, hj, ho, hv]
      · simp [hq, hj, ho, hv]

/-- Witness for C3: updating an unowned (null-owner) joke succeeds for
an authenticated caller. -/
theorem C3_update_delete_ownership_witness :
    (update_joke stNull (Token.valid "1") 1 (some "new")).resp.status = 200 :=
  ((C3_update_delete_ownership stNull "1" aliceU 1 (some "new")
    (by decide) (by decide)).1.2.2).mpr ⟨jokeNullOwner, by decide, Or.inl rfl⟩

/-- Equation lemma: a registration with non-empty fields and a free
username creates the user and answers 201. -/
theorem register_success (hash : String → String) (st : State) (u p : String)
    (hu : u ≠ "") (hp : p ≠ "") (hfree : findUserByName st u = none) :
    register hash st (some u) (some p) =
      { resp := { body := Body.message ("user " ++ u ++ " created"), status := 201 }
        st := { st with
          users := st.users ++ [{ id := st.nextUserId, username := u, password_hash := hash p }]
          nextUserId := st.nextUserId + 1 }
        trace := [Event.userRead, Event.userWrite] } := by
  simp [register, fieldPresent, hu, hp, hfree]

/-- Equation lemma: a registration with non-empty fields and a taken
username changes nothing and answers 400. -/
theorem register_duplicate (hash : String → String) (st : State) (u p : String)
    (x : User) (hu : u ≠ "") (hp : p ≠ "") (hex : findUserByName st u = some x) :
    register hash st (some u) (some p) =
      { resp := { body := Body.error "username already exists", status := 400 }
        st := st, trace := [Event.userRead] } := by
  simp [register, fieldPresent, hu, hp, hex]

/-- C6: after a successful register of a fresh username, registering the
same username again fails with 400, leaves the store unchanged, and
exactly one user with that username is persisted; the stored credential
is the derived hash of the password, never the plaintext. -/
theorem C6_register_no_duplicate (hash : String → String) (st : State)
    (u p p' : String) (hne : ∀ q, hash q ≠ q)
    (hu : u ≠ "") (hp : p ≠ "") (hp' : p' ≠ "")
    (hfree : findUserByName st u = none) :
    (register hash st (some u) (some p)).resp.status = 201
    ∧ (register hash (register hash st (some u) (some p)).st (some u) (some p')).resp
        = { body := Body.error "username already exists", status := 400 }
    ∧ (register hash (register hash st (some u) (some p)).st (some u) (some p')).st
        = (register hash st (some u) (some p)).st
    ∧ ((register hash st (some u) (some p)).st.users.filter
        (fun x => x.username == u)).length = 1
    ∧ ∃ x ∈ (register hash st (some u) (some p)).st.users,
        x.username = u ∧ x.password_hash = hash p ∧ x.password_hash ≠ p := by
  have h1 := register_success hash st u p hu hp hfree
  have hmem : findUserByName (register hash st (some u) (some p)).st u =
      some { id := st.nextUserId, username := u, password_hash := hash p } := by
    rw [h1]
    simp [findUserByName, List.find?_append]
    right
    intro x hx
    simpa using List.find?_eq_none.mp hfree x hx
  have h2 := register_duplicate hash (register hash st (some u) (some p)).st u p'
    { id := st.nextUserId, username := u, password_hash := hash p } hu hp' hmem
  refine ⟨by rw [h1], by rw [h2], by rw [h2], ?_, ?_⟩
  · rw [h1]
    simp only [List.filter_append]
    have hnil : st.users.filter (fun x => x.username == u) = [] := by
      rw [List.filter_eq_nil_iff]
      intro a ha
      simpa using List.find?_eq_none.mp hfree a ha
    rw [hnil]
    simp
  · refine ⟨{ id := st.nextUserId, username := u, password_hash := hash p }, ?_, rfl, rfl, hne p⟩
    rw [h1]
    simp

/-- Witness for C6 at a concrete state and hash function. -/
theorem C6_register_no_duplicate_witness :
    (register (fun q => "h" ++ q) stAlice (some "bob") (some "pw")).resp.status = 201
    ∧ (register (fun q => "h" ++ q)
        (register (fun q => "h" ++ q) stAlice (some "bob") (some "pw")).st
        (some "bob") (some "pw2")).resp
        = { body := Body.error "username already exists", status := 400 } := by
  have hne : ∀ q : String, "h" ++ q ≠ q := by
    intro q hq
    have hlen := congrArg String.length hq
    rw [String.length_append] at hlen
    have hone : ("h" : String).length = 1 := rfl
    omega
  have h := C6_register_no_duplicate (fun q => "h" ++ q) stAlice "bob" "pw" "pw2"
    hne (by decide) (by decide) (by decide) (by decide)
  exact ⟨h.1, h.2.1⟩

/-- C7: login fails with the identical response (same 401 status, same
error body, same trace) whether the username is unknown or the password
hash does not match; and when the stored hash is the derived hash of p
under a sound hash scheme, login succeeds exactly on password p. -/
theorem C7_login_uniform_failure (hash : String → String)
    (checkHash : String → String → Bool) (st : State) (u p p' : String)
    (usr : User) (hu : u ≠ "") (hp : p ≠ "") :
    ((∀ w, findUserByName st u = some w → checkHash w.password_hash p = false) →
      login checkHash st (some u) (some p) =
        { resp := { body := Body.error "invalid credentials", status := 401 }
          st := st, trace := [Event.userRead] })
    ∧ ((∀ q q', checkHash (hash q) q' = (q' == q)) →
      findUserByName st u = some usr → usr.password_hash = hash p →
      ((login checkHash st (some u) (some p')).resp.status = 200 ↔ p' = p)) := by
  constructor
  · intro hfail
    cases hf : findUserByName st u with
    | none => simp [login, fieldPresent, hu, hp, hf]
    | some w =>
      have hw := hfail w hf
      simp [login, fieldPresent, hu, hp, hf, hw]
  · intro hsound hfind hhash
    by_cases hpe : p' = ""
    · subst hpe
      have h400 : (login checkHash st (some u) (some "")).resp.status = 400 := by
        simp [login, fieldPresent, hu, missingResponse]
      rw [h400]
      simp
      exact fun h => hp h.symm
    · have hck : checkHash usr.password_hash p' = (p' == p) := by
        rw [hhash, hsound]
      by_cases he : p' = p
      · subst he
        simp [login, fieldPresent, hu, hpe, hfind, hck]
      · simp [login, fieldPresent, hu, hpe, hfind, hck, he]

/-- State whose sole user carries the identity-hash of the password
"pw", for the C7 witness. -/
def stHashed : State :=
  { users := [{ id := 1, username := "alice", password_hash := "pw" }]
    jokes := [], nextUserId := 2, nextJokeId := 1, now := 0 }

/-- Witness for C7: unknown username produces the uniform 401, and with
a sound hash scheme the right password logs in. -/
theorem C7_login_uniform_failure_witness :
    login (fun h q => q == h) stAlice (some "nobody") (some "pw") =
      { resp := { body := Body.error "invalid credentials", status := 401 }
        st := stAlice, trace := [Event.userRead] }
    ∧ ((login (fun h q => q == h) stHashed
        (some "alice") (some "pw")).resp.status = 200 ↔ ("pw" : String) = "pw") := by
  constructor
  · have hfail : ∀ w, findUserByName stAlice "nobody" = some w →
        (fun h q => q == h) w.password_hash "pw" = false := by
      intro w hw
      have hn : findUserByName stAlice "nobody" = none := by decide
      rw [hn] at hw
      cases hw
    exact (C7_login_uniform_failure (fun q => q) (fun h q => q == h)
      stAlice "nobody" "pw" "x" aliceU (by decide) (by decide)).1 hfail
  · exact (C7_login_uniform_failure (fun q => q) (fun h q => q == h)
      stHashed "alice" "pw" "pw"
      { id := 1, username := "alice", password_hash := "pw" }
      (by decide) (by decide)).2
      (fun q q' => rfl) (by decide) rfl

/-- The joke row created by `random_joke` on a dedup miss, from the
normalized upstream response. -/
def freshJoke (st : State) (user : User) (d : UpstreamRandom) : Joke :=
  { id := st.nextJokeId, joke_id := (normalize_random d).external_id
    value := (normalize_random d).value, category := (normalize_random d).category
    created_at := st.now, user_id := some user.id }

/-- The state after appending one joke row and bumping the counter. -/
def insertJoke (st : State) (j : Joke) : State :=
  { st with jokes := st.jokes ++ [j], nextJokeId := st.nextJokeId + 1 }

/-- C1: for an authenticated user who does not yet hold the external
joke `eid`, two upserts through GET /random carrying the same upstream
id (and a joke text on the first body, so the NOT NULL insert succeeds)
create exactly one row: the first answers 201 and adds one joke, the
second answers 200, changes nothing, and both responses carry the same
joke id. -/
theorem C1_random_upsert_idempotent (st : State) (sub : String) (user : User)
    (eid w : String) (d1 d2 : UpstreamRandom) (c1 c2 : Option String)
    (hauth : current_user st sub = some user)
    (h1 : d1.id = some eid) (h2 : d2.id = some eid)
    (hv1 : d1.value = some w)
    (hnew : ∀ j ∈ st.jokes, ¬(j.joke_id = some eid ∧ j.user_id = some user.id)) :
    (random_joke st (Token.valid sub) c1 (ExtResult.ok d1)).resp.status = 201
    ∧ (random_joke st (Token.valid sub) c1 (ExtResult.ok d1)).st.jokes.length
        = st.jokes.length + 1
    ∧ (random_joke (random_joke st (Token.valid sub) c1 (ExtResult.ok d1)).st
        (Token.valid sub) c2 (ExtResult.ok d2)).resp.status = 200
    ∧ (random_joke (random_joke st (Token.valid sub) c1 (ExtResult.ok d1)).st
        (Token.valid sub) c2 (ExtResult.ok d2)).st
        = (random_joke st (Token.valid sub) c1 (ExtResult.ok d1)).st
    ∧ ∃ dd1 dd2 : JokeDict,
        (random_joke st (Token.valid sub) c1 (ExtResult.ok d1)).resp.body
          = Body.jokeRec dd1
        ∧ (random_joke (random_joke st (Token.valid sub) c1 (ExtResult.ok d1)).st
            (Token.valid sub) c2 (ExtResult.ok d2)).resp.body = Body.jokeRec dd2
        ∧ dd1.id = dd2.id := by
  have hf1 : st.jokes.find? (fun j =>
      j.joke_id == d1.id && j.user_id == some user.id) = none := by
    rw [List.find?_eq_none]
    intro j hj
    have := hnew j hj
    simp [h1]
    intro hjid hupd
    exact this ⟨hjid, hupd⟩
  have e1 : random_joke st (Token.valid sub) c1 (ExtResult.ok d1) =
      { resp := { body := Body.jokeRec (Joke.to_dict st.users (freshJoke st user d1)), status := 201 }
        st := insertJoke st (freshJoke st user d1)
        trace := resolveTrace sub ++ [Event.extFetch, Event.jokeRead, Event.jokeWrite] } := by
    simp only [random_joke, withJwt, hauth, hf1, freshJoke, insertJoke,
      normalize_random, hv1]
  rw [e1]
  have hauth1 : current_user (insertJoke st (freshJoke st user d1)) sub = some user := hauth
  have hf2 : (insertJoke st (freshJoke st user d1)).jokes.find? (fun j =>
        j.joke_id == (normalize_random d2).external_id && j.user_id == some user.id)
      = some (freshJoke st user d1) := by
    show (st.jokes ++ [freshJoke st user d1]).find? _ = _
    rw [List.find?_append]
    have hl : st.jokes.find? (fun j =>
        j.joke_id == (normalize_random d2).external_id && j.user_id == some user.id) = none := by
      rw [List.find?_eq_none]
      intro j hj
      have := hnew j hj
      simp [normalize_random, h2]
      intro hjid hupd
      exact this ⟨hjid, hupd⟩
    rw [hl]
    simp [freshJoke, normalize_random, h1, h2]
  have e2 : random_joke (insertJoke st (freshJoke st user d1))
      (Token.valid sub) c2 (ExtResult.ok d2) =
      { resp := { body := Body.jokeRec (Joke.to_dict (insertJoke st (freshJoke st user d1)).users (freshJoke st user d1)), status := 200 }
        st := insertJoke st (freshJoke st user d1)
        trace := resolveTrace sub ++ [Event.extFetch, Event.jokeRead] } := by
    simp only [random_joke, withJwt, hauth1, hf2]
  rw [e2]
  refine ⟨rfl, by simp [insertJoke], rfl, rfl, ?_⟩
  exact ⟨_, _, rfl, rfl, rfl⟩

/-- A fixed upstream response carrying the external id "abc". -/
def upstreamAbc : UpstreamRandom :=
  { id := some "abc", value := some "v", categories := none }

/-- Witness for C1: fetching the same external joke twice from a fresh
state answers 201 then 200. -/
theorem C1_random_upsert_idempotent_witness :
    (random_joke stAlice (Token.valid "1") none (ExtResult.ok upstreamAbc)).resp.status = 201
    ∧ (random_joke (random_joke stAlice (Token.valid "1") none
        (ExtResult.ok upstreamAbc)).st (Token.valid "1") none
        (ExtResult.ok upstreamAbc)).resp.status = 200 := by
  have h := C1_random_upsert_idempotent stAlice "1" aliceU "abc" "v"
    upstreamAbc upstreamAbc none none (by decide) rfl rfl rfl (by decide)
  exact ⟨h.1, h.2.2.1⟩

/-- C10: when the upstream response has no id field, the dedup lookup
`filter_by(joke_id=None, user_id=...)` matches an existing user-authored
joke (null `joke_id`), so the call answers 200, persists nothing new,
and returns one of the caller's stored null-external-id jokes. -/
theorem C10_null_external_dedup (st : State) (sub : String) (user : User)
    (d : UpstreamRandom) (c : Option String)
    (hauth : current_user st sub = some user) (hid : d.id = none)
    (hown : ∃ j ∈ st.jokes, j.joke_id = none ∧ j.user_id = some user.id) :
    (random_joke st (Token.valid sub) c (ExtResult.ok d)).resp.status = 200
    ∧ (random_joke st (Token.valid sub) c (ExtResult.ok d)).st = st
    ∧ ∃ j ∈ st.jokes, j.joke_id = none ∧ j.user_id = some user.id ∧
        (random_joke st (Token.valid sub) c (ExtResult.ok d)).resp.body
          = Body.jokeRec (Joke.to_dict st.users j) := by
  have hsome : (st.jokes.find? (fun j =>
      j.joke_id == (normalize_random d).external_id && j.user_id == some user.id)).isSome := by
    rw [List.find?_isSome]
    obtain ⟨j, hj, hjid, hjuid⟩ := hown
    exact ⟨j, hj, by simp [normalize_random, hid, hjid, hjuid]⟩
  cases hf : st.jokes.find? (fun j =>
      j.joke_id == (normalize_random d).external_id && j.user_id == some user.id) with
  | none => rw [hf] at hsome; cases hsome
  | some j0 =>
    have hj0 := List.find?_some hf
    have hj0mem := List.mem_of_find?_eq_some hf
    simp [normalize_random, hid] at hj0
    have e : random_joke st (Token.valid sub) c (ExtResult.ok d) =
        { resp := { body := Body.jokeRec (Joke.to_dict st.users j0), status := 200 }
          st := st
          trace := resolveTrace sub ++ [Event.extFetch, Event.jokeRead] } := by
      simp only [random_joke, withJwt, hauth, hf]
    rw [e]
    exact ⟨rfl, rfl, j0, hj0mem, hj0.1, hj0.2, rfl⟩

/-- State where alice owns a user-authored joke (null external id). -/
def stAliceOwned : State :=
  { users := [aliceU], jokes := [jokeOwned1], nextUserId := 2, nextJokeId := 2, now := 0 }

/-- Witness for C10: an upstream response with no id matches the stored
user-authored joke and creates nothing. -/
theorem C10_null_external_dedup_witness :
    (random_joke stAliceOwned (Token.valid "1") none
      (ExtResult.ok { id := none, value := some "v", categories := none })).resp.status = 200
    ∧ (random_joke stAliceOwned (Token.valid "1") none
      (ExtResult.ok { id := none, value := some "v", categories := none })).st
      = stAliceOwned := by
  have h := C10_null_external_dedup stAliceOwned "1" aliceU
    { id := none, value := some "v", categories := none } none
    (by decide) rfl ⟨jokeOwned1, by decide, rfl, rfl⟩
  exact ⟨h.1, h.2.1⟩

/-- The session token carried by a request, when the operation is
protected by the jwt guard. -/
def Request.token : Request → Option Token
  | Request.register _ _ => none
  | Request.login _ _ => none
  | Request.list_jokes tok => some tok
  | Request.get_joke tok _ => some tok
  | Request.create_joke tok _ => some tok
  | Request.update_joke tok _ _ => some tok
  | Request.delete_joke tok _ => some tok
  | Request.categories tok _ => some tok
  | Request.random_joke tok _ _ => some tok

/-- The resolve trace is empty or a single user-table read. -/
theorem resolveTrace_cases (sub : String) :
    resolveTrace sub = [] ∨ resolveTrace sub = [Event.userRead] := by
  unfold resolveTrace
  cases parseIdentity sub
  · exact Or.inl rfl
  · exact Or.inr rfl

/-- Only a user-table read can occur while resolving the subject. -/
theorem not_mem_resolveTrace (sub : String) (e : Event)
    (hne : e ≠ Event.userRead) : e ∉ resolveTrace sub := by
  rcases resolveTrace_cases sub with h | h <;> rw [h] <;> simp [hne]

/-- A joke owned by the (deleted) user 9, in a state with no users. -/
def jokeOwned9 : Joke :=
  { id := 1, joke_id := none, value := some "j", category := none
    created_at := 0, user_id := some 9 }

/-- State with no users at all but one persisted joke. -/
def stStale : State :=
  { users := [], jokes := [jokeOwned9], nextUserId := 1, nextJokeId := 2, now := 0 }

/-- C4 counterexample: a well-signed token whose subject (user 1) no
longer corresponds to an existing user does not short-circuit with 401
before repository access — update on an absent joke id reads the joke
repository and answers 404, and categories never resolves the user and
answers 200. -/
theorem C4_counterexample :
    current_user stStale "1" = none
    ∧ (update_joke stStale (Token.valid "1") 2 (some "x")).resp.status = 404
    ∧ Event.jokeRead ∈ (update_joke stStale (Token.valid "1") 2 (some "x")).trace
    ∧ (categories stStale (Token.valid "1") (ExtResult.ok ["animal"])).resp.status = 200 := by
  decide

/-- C4 amended: tokens rejected by the jwt guard short-circuit with 401
and an empty trace on every protected operation; a well-signed token
whose subject does not resolve to an existing user is rejected 401
before any joke-repository access by list, get, create (after body
validation) and random — but categories proceeds without resolving the
user and never answers 401, and update and delete read the joke
repository first, answering 404 on an absent joke and 401 only after
that lookup. -/
theorem C4_auth_short_circuit (hash : String → String)
    (checkHash : String → String → Bool) (st : State) (sub : String)
    (i : Nat) (v c : Option String) (extc : ExtResult (List String))
    (extr : ExtResult UpstreamRandom)
    (hcu : current_user st sub = none) (hv : fieldPresent v = true) :
    (∀ req : Request, req.token = some Token.invalid →
      handle hash checkHash st req = { resp := jwtErrorResponse, st := st, trace := [] })
    ∧ ((list_jokes st (Token.valid sub)).resp.status = 401
      ∧ Event.jokeRead ∉ (list_jokes st (Token.valid sub)).trace
      ∧ Event.jokeWrite ∉ (list_jokes st (Token.valid sub)).trace)
    ∧ ((get_joke st (Token.valid sub) i).resp.status = 401
      ∧ Event.jokeRead ∉ (get_joke st (Token.valid sub) i).trace
      ∧ Event.jokeWrite ∉ (get_joke st (Token.valid sub) i).trace)
    ∧ ((create_joke st (Token.valid sub) v).resp.status = 401
      ∧ Event.jokeRead ∉ (create_joke st (Token.valid sub) v).trace
      ∧ Event.jokeWrite ∉ (create_joke st (Token.valid sub) v).trace)
    ∧ ((random_joke st (Token.valid sub) c extr).resp.status = 401
      ∧ Event.jokeRead ∉ (random_joke st (Token.valid sub) c extr).trace
      ∧ Event.jokeWrite ∉ (random_joke st (Token.valid sub) c extr).trace
      ∧ Event.extFetch ∉ (random_joke st (Token.valid sub) c extr).trace)
    ∧ (categories st (Token.valid sub) extc).resp.status ≠ 401
    ∧ ((queryGetJoke st i = none →
        (update_joke st (Token.valid sub) i v).resp.status = 404)
      ∧ ((queryGetJoke st i).isSome →
        (update_joke st (Token.valid sub) i v).resp.status = 401)
      ∧ (update_joke st (Token.valid sub) i v).trace.head? = some Event.jokeRead)
    ∧ ((queryGetJoke st i = none →
        (delete_joke st (Token.valid sub) i).resp.status = 404)
      ∧ ((queryGetJoke st i).isSome →
        (delete_joke st (Token.valid sub) i).resp.status = 401)
      ∧ (delete_joke st (Token.valid sub) i).trace.head? = some Event.jokeRead) := by
  refine ⟨?_, ?_, ?_, ?_, ?_, ?_, ?_, ?_⟩
  · intro req htok
    cases req <;>
      first
        | exact Option.noConfusion htok
        | (simp only [Request.token, Option.some.injEq] at htok; subst htok; rfl)
  · simp only [list_jokes, withJwt, hcu]
    exact ⟨rfl, not_mem_resolveTrace sub _ (by simp), not_mem_resolveTrace sub _ (by simp)⟩
  · simp only [get_joke, withJwt, hcu]
    exact ⟨rfl, not_mem_resolveTrace sub _ (by simp), not_mem_resolveTrace sub _ (by simp)⟩
  · simp only [create_joke, withJwt, hv, if_true, hcu]
    exact ⟨rfl, not_mem_resolveTrace sub _ (by simp), not_mem_resolveTrace sub _ (by simp)⟩
  · simp only [random_joke, withJwt, hcu]
    exact ⟨rfl, not_mem_resolveTrace sub _ (by simp), not_mem_resolveTrace sub _ (by simp),
      not_mem_resolveTrace sub _ (by simp)⟩
  · simp only [categories, withJwt]
    cases extc <;> simp
  · cases hq : queryGetJoke st i with
    | none =>
      refine ⟨fun _ => ?_, fun hs => ?_, ?_⟩
      · simp [update_joke, withJwt, hq]
      · simp at hs
      · simp [update_joke, withJwt, hq]
    | some j =>
      refine ⟨fun hn => ?_, fun _ => ?_, ?_⟩
      · simp at hn
      · simp [update_joke, withJwt, hq, hcu, abortResponse]
      · simp [update_joke, withJwt, hq, hcu]
  · cases hq : queryGetJoke st i with
    | none =>
      refine ⟨fun _ => ?_, fun hs => ?_, ?_⟩
      · simp [delete_joke, withJwt, hq]
      · simp at hs
      · simp [delete_joke, withJwt, hq]
    | some j =>
      refine ⟨fun hn => ?_, fun _ => ?_, ?_⟩
      · simp at hn
      · simp [delete_joke, withJwt, hq, hcu, abortResponse]
      · simp [delete_joke, withJwt, hq, hcu]

/-- Witness for the amended C4 at a concrete stale-subject state. -/
theorem C4_auth_short_circuit_witness :
    (list_jokes stStale (Token.valid "1")).resp.status = 401
    ∧ (categories stStale (Token.valid "1") (ExtResult.ok ["animal"])).resp.status ≠ 401
    ∧ (update_joke stStale (Token.valid "1") 1 (some "x")).resp.status = 401 := by
  have h := C4_auth_short_circuit (fun q => q) (fun h q => q == h) stStale "1" 1
    (some "x") none (ExtResult.ok ["animal"]) ExtResult.fail (by decide) (by decide)
  exact ⟨h.2.1.1, h.2.2.2.2.2.1, h.2.2.2.2.2.2.1.2.1 (by decide)⟩

/-- Case analysis over every operation: either the state is untouched
and no write event occurs, or the request succeeded with 200 or 201. -/
theorem handle_state_cases (hash : String → String)
    (checkHash : String → String → Bool) (st : State) (req : Request) :
    ((handle hash checkHash st req).st = st
      ∧ Event.jokeWrite ∉ (handle hash checkHash st req).trace
      ∧ Event.userWrite ∉ (handle hash checkHash st req).trace)
    ∨ (handle hash checkHash st req).resp.status = 200
    ∨ (handle hash checkHash st req).resp.status = 201 := by
  have hres : ∀ s : String, Event.jokeWrite ∉ resolveTrace s
      ∧ Event.userWrite ∉ resolveTrace s := by
    intro s
    exact ⟨not_mem_resolveTrace s _ (by simp), not_mem_resolveTrace s _ (by simp)⟩
  cases req with
  | register u p =>
    simp only [handle, register]
    split
    · cases hf : findUserByName st (u.getD "") with
      | some x => refine Or.inl ⟨?_, ?_, ?_⟩ <;> simp [hf]
      | none =>
        refine Or.inr (Or.inr ?_)
        simp [hf]
    · refine Or.inl ⟨?_, ?_, ?_⟩ <;> simp
  | login u p =>
    simp only [handle, login]
    split
    · cases hf : findUserByName st (u.getD "") with
      | none => refine Or.inl ⟨?_, ?_, ?_⟩ <;> simp [hf]
      | some user =>
        by_cases hc : checkHash user.password_hash (p.getD "") = true
        · refine Or.inl ⟨?_, ?_, ?_⟩ <;> simp [hf, hc]
        · refine Or.inl ⟨?_, ?_, ?_⟩ <;> simp [hf, hc]
    · refine Or.inl ⟨?_, ?_, ?_⟩ <;> simp
  | list_jokes tok =>
    cases tok with
    | invalid => refine Or.inl ⟨?_, ?_, ?_⟩ <;> simp [handle, list_jokes, withJwt]
    | valid sub =>
      cases hcu : current_user st sub with
      | none =>
        refine Or.inl ⟨?_, ?_, ?_⟩ <;>
          simp [handle, list_jokes, withJwt, hcu, (hres sub).1, (hres sub).2]
      | some user =>
        refine Or.inl ⟨?_, ?_, ?_⟩ <;>
          simp [handle, list_jokes, withJwt, hcu, (hres sub).1, (hres sub).2]
  | get_joke tok i =>
    cases tok with
    | invalid => refine Or.inl ⟨?_, ?_, ?_⟩ <;> simp [handle, get_joke, withJwt]
    | valid sub =>
      cases hcu : current_user st sub with
      | none =>
        refine Or.inl ⟨?_, ?_, ?_⟩ <;>
          simp [handle, get_joke, withJwt, hcu, (hres sub).1, (hres sub).2]
      | some user =>
        cases hq : queryGetJoke st i with
        | none =>
          refine Or.inl ⟨?_, ?_, ?_⟩ <;>
            simp [handle, get_joke, withJwt, hcu, hq, (hres sub).1, (hres sub).2]
        | some j =>
          by_cases ho : j.user_id = some user.id <;>
            (refine Or.inl ⟨?_, ?_, ?_⟩ <;>
              simp [handle, get_joke, withJwt, hcu, hq, ho, (hres sub).1, (hres sub).2])
  | create_joke tok v =>
    cases tok with
    | invalid => refine Or.inl ⟨?_, ?_, ?_⟩ <;> simp [handle, create_joke, withJwt]
    | valid sub =>
      by_cases hfp : fieldPresent v = true
      · cases hcu : current_user st sub with
        | none =>
          refine Or.inl ⟨?_, ?_, ?_⟩ <;>
            simp [handle, create_joke, withJwt, hfp, hcu, (hres sub).1, (hres sub).2]
        | some user =>
          refine Or.inr (Or.inr ?_)
          simp [handle, create_joke, withJwt, hfp, hcu]
      · refine Or.inl ⟨?_, ?_, ?_⟩ <;> simp [handle, create_joke, withJwt, hfp]
  | update_joke tok i v =>
    cases tok with
    | invalid => refine Or.inl ⟨?_, ?_, ?_⟩ <;> simp [handle, update_joke, withJwt]
    | valid sub =>
      cases hq : queryGetJoke st i with
      | none => refine Or.inl ⟨?_, ?_, ?_⟩ <;> simp [handle, update_joke, withJwt, hq]
      | some j =>
        cases hcu : current_user st sub with
        | none =>
          refine Or.inl ⟨?_, ?_, ?_⟩ <;>
            simp [handle, update_joke, withJwt, hq, hcu, (hres sub).1, (hres sub).2]
        | some user =>
          by_cases ho : (j.user_id.isSome && !(j.user_id == some user.id)) = true
          · refine Or.inl ⟨?_, ?_, ?_⟩ <;>
              simp [handle, update_joke, withJwt, hq, hcu, ho, (hres sub).1, (hres sub).2]
          · by_cases hfp : fieldPresent v = true
            · refine Or.inr (Or.inl ?_)
              simp [handle, update_joke, withJwt, hq, hcu, ho, hfp]
            · refine Or.inl ⟨?_, ?_, ?_⟩ <;>
                simp [handle, update_joke, withJwt, hq, hcu, ho, hfp,
                  (hres sub).1, (hres sub).2]
  | delete_joke tok i =>
    cases tok with
    | invalid => refine Or.inl ⟨?_, ?_, ?_⟩ <;> simp [handle, delete_joke, withJwt]
    | valid sub =>
      cases hq : queryGetJoke st i with
      | none => refine Or.inl ⟨?_, ?_, ?_⟩ <;> simp [handle, delete_joke, withJwt, hq]
      | some j =>
        cases hcu : current_user st sub with
        | none =>
          refine Or.inl ⟨?_, ?_, ?_⟩ <;>
            simp [handle, delete_joke, withJwt, hq, hcu, (hres sub).1, (hres sub).2]
        | some user =>
          by_cases ho : (j.user_id.isSome && !(j.user_id == some user.id)) = true
          · refine Or.inl ⟨?_, ?_, ?_⟩ <;>
              simp [handle, delete_joke, withJwt, hq, hcu, ho, (hres sub).1, (hres sub).2]
          · refine Or.inr (Or.inl ?_)
            simp [handle, delete_joke, withJwt, hq, hcu, ho]
  | categories tok ext =>
    cases tok with
    | invalid => refine Or.inl ⟨?_, ?_, ?_⟩ <;> simp [handle, categories, withJwt]
    | valid sub =>
      cases ext with
      | fail => refine Or.inl ⟨?_, ?_, ?_⟩ <;> simp [handle, categories, withJwt]
      | ok cats => refine Or.inl ⟨?_, ?_, ?_⟩ <;> simp [handle, categories, withJwt]
  | random_joke tok c ext =>
    cases tok with
    | invalid => refine Or.inl ⟨?_, ?_, ?_⟩ <;> simp [handle, random_joke, withJwt]
    | valid sub =>
      cases hcu : current_user st sub with
      | none =>
        refine Or.inl ⟨?_, ?_, ?_⟩ <;>
          simp [handle, random_joke, withJwt, hcu, (hres sub).1, (hres sub).2]
      | some user =>
        cases ext with
        | fail =>
          refine Or.inl ⟨?_, ?_, ?_⟩ <;>
            simp [handle, random_joke, withJwt, hcu, (hres sub).1, (hres sub).2]
        | ok data =>
          cases hf : st.jokes.find? (fun j =>
              j.joke_id == (normalize_random data).external_id
                && j.user_id == some user.id) with
          | some existing =>
            refine Or.inl ⟨?_, ?_, ?_⟩ <;>
              simp [handle, random_joke, withJwt, hcu, hf, (hres sub).1, (hres sub).2]
          | none =>
            cases hv : (normalize_random data).value with
            | none =>
              refine Or.inl ⟨?_, ?_, ?_⟩ <;>
                simp [handle, random_joke, withJwt, hcu, hf, hv,
                  (hres sub).1, (hres sub).2]
            | some w =>
              refine Or.inr (Or.inr ?_)
              simp [handle, random_joke, withJwt, hcu, hf, hv]

/-- C5: every operation that terminates with an error status (400, 401,
403, 404 or 502) leaves the persisted state exactly as it was and never
records a joke-store or user-store write — in particular an upstream
failure on categories or random persists nothing. -/
theorem C5_error_preserves_state (hash : String → String)
    (checkHash : String → String → Bool) (st : State) (req : Request)
    (herr : (handle hash checkHash st req).resp.status = 400
      ∨ (handle hash checkHash st req).resp.status = 401
      ∨ (handle hash checkHash st req).resp.status = 403
      ∨ (handle hash checkHash st req).resp.status = 404
      ∨ (handle hash checkHash st req).resp.status = 502) :
    (handle hash checkHash st req).st = st
    ∧ Event.jokeWrite ∉ (handle hash checkHash st req).trace
    ∧ Event.userWrite ∉ (handle hash checkHash st req).trace := by
  rcases handle_state_cases hash checkHash st req with h | h | h
  · exact h
  · rw [h] at herr
    simp at herr
  · rw [h] at herr
    simp at herr

/-- Witness for C5: a 502 upstream failure on random leaves the state
unchanged. -/
theorem C5_error_preserves_state_witness :
    (handle (fun q => q) (fun h q => q == h) stAlice
      (Request.random_joke (Token.valid "1") none ExtResult.fail)).st = stAlice :=
  (C5_error_preserves_state (fun q => q) (fun h q => q == h) stAlice
    (Request.random_joke (Token.valid "1") none ExtResult.fail)
    (Or.inr (Or.inr (Or.inr (Or.inr (by decide)))))).1

/-- Shape of the joke table after any operation: unchanged, one fresh
row appended with the next id, a value-only rewrite of one id, or a
deletion of one id. -/
theorem handle_jokes_shape (hash : String → String)
    (checkHash : String → String → Bool) (st : State) (req : Request) :
    (handle hash checkHash st req).st.jokes = st.jokes
    ∨ (∃ jnew : Joke, jnew.id = st.nextJokeId
        ∧ (handle hash checkHash st req).st.jokes = st.jokes ++ [jnew])
    ∨ (∃ i v, (handle hash checkHash st req).st.jokes
        = st.jokes.map (fun j => if j.id == i then { j with value := v } else j))
    ∨ (∃ i, (handle hash checkHash st req).st.jokes
        = st.jokes.filter (fun j => !(j.id == i))) := by
  cases req with
  | register u p =>
    simp only [handle, register]
    split
    · cases hf : findUserByName st (u.getD "") with
      | some x => exact Or.inl (by simp [hf])
      | none => exact Or.inl (by simp [hf])
    · exact Or.inl rfl
  | login u p =>
    simp only [handle, login]
    split
    · cases hf : findUserByName st (u.getD "") with
      | none => exact Or.inl (by simp [hf])
      | some user =>
        by_cases hc : checkHash user.password_hash (p.getD "") = true
        · exact Or.inl (by simp [hf, hc])
        · exact Or.inl (by simp [hf, hc])
    · exact Or.inl rfl
  | list_jokes tok =>
    cases tok with
    | invalid => exact Or.inl rfl
    | valid sub =>
      cases hcu : current_user st sub with
      | none => exact Or.inl (by simp [handle, list_jokes, withJwt, hcu])
      | some user => exact Or.inl (by simp [handle, list_jokes, withJwt, hcu])
  | get_joke tok i =>
    cases tok with
    | invalid => exact Or.inl rfl
    | valid sub =>
      cases hcu : current_user st sub with
      | none => exact Or.inl (by simp [handle, get_joke, withJwt, hcu])
      | some user =>
        cases hq : queryGetJoke st i with
        | none => exact Or.inl (by simp [handle, get_joke, withJwt, hcu, hq])
        | some j =>
          by_cases ho : j.user_id = some user.id <;>
            exact Or.inl (by simp [handle, get_joke, withJwt, hcu, hq, ho])
  | create_joke tok v =>
    cases tok with
    | invalid => exact Or.inl rfl
    | valid sub =>
      by_cases hfp : fieldPresent v = true
      · cases hcu : current_user st sub with
        | none => exact Or.inl (by simp [handle, create_joke, withJwt, hfp, hcu])
        | some user =>
          refine Or.inr (Or.inl ⟨{ id := st.nextJokeId, joke_id := none, value := v, category := none, created_at := st.now, user_id := some user.id }, rfl, ?_⟩)
          simp [handle, create_joke, withJwt, hfp, hcu]
      · exact Or.inl (by simp [handle, create_joke, withJwt, hfp])
  | update_joke tok i v =>
    cases tok with
    | invalid => exact Or.inl rfl
    | valid sub =>
      cases hq : queryGetJoke st i with
      | none => exact Or.inl (by simp [handle, update_joke, withJwt, hq])
      | some j =>
        cases hcu : current_user st sub with
        | none => exact Or.inl (by simp [handle, update_joke, withJwt, hq, hcu])
        | some user =>
          by_cases ho : (j.user_id.isSome && !(j.user_id == some user.id)) = true
          · exact Or.inl (by simp [handle, update_joke, withJwt, hq, hcu, ho])
          · by_cases hfp : fieldPresent v = true
            · refine Or.inr (Or.inr (Or.inl ⟨i, v, ?_⟩))
              simp [handle, update_joke, withJwt, hq, hcu, ho, hfp]
            · exact Or.inl (by simp [handle, update_joke, withJwt, hq, hcu, ho, hfp])
  | delete_joke tok i =>
    cases tok with
    | invalid => exact Or.inl rfl
    | valid sub =>
      cases hq : queryGetJoke st i with
      | none => exact Or.inl (by simp [handle, delete_joke, withJwt, hq])
      | some j =>
        cases hcu : current_user st sub with
        | none => exact Or.inl (by simp [handle, delete_joke, withJwt, hq, hcu])
        | some user =>
          by_cases ho : (j.user_id.isSome && !(j.user_id == some user.id)) = true
          · exact Or.inl (by simp [handle, delete_joke, withJwt, hq, hcu, ho])
          · refine Or.inr (Or.inr (Or.inr ⟨j.id, ?_⟩))
            simp [handle, delete_joke, withJwt, hq, hcu, ho]
  | categories tok ext =>
    cases tok with
    | invalid => exact Or.inl rfl
    | valid sub =>
      cases ext with
      | fail => exact Or.inl (by simp [handle, categories, withJwt])
      | ok cats => exact Or.inl (by simp [handle, categories, withJwt])
  | random_joke tok c ext =>
    cases tok with
    | invalid => exact Or.inl rfl
    | valid sub =>
      cases hcu : current_user st sub with
      | none => exact Or.inl (by simp [handle, random_joke, withJwt, hcu])
      | some user =>
        cases ext with
        | fail => exact Or.inl (by simp [handle, random_joke, withJwt, hcu])
        | ok data =>
          cases hf : st.jokes.find? (fun j =>
              j.joke_id == (normalize_random data).external_id
                && j.user_id == some user.id) with
          | some existing =>
            exact Or.inl (by simp [handle, random_joke, withJwt, hcu, hf])
          | none =>
            cases hv : (normalize_random data).value with
            | none => exact Or.inl (by simp [handle, random_joke, withJwt, hcu, hf, hv])
            | some w =>
              refine Or.inr (Or.inl ⟨freshJoke st user data, rfl, ?_⟩)
              simp [handle, random_joke, withJwt, hcu, hf, hv, freshJoke]

/-- Rows with equal primary keys coincide in a pairwise id-distinct
table. -/
theorem eq_of_mem_of_id_eq {l : List Joke}
    (hp : l.Pairwise (fun a b => a.id ≠ b.id)) {a b : Joke}
    (ha : a ∈ l) (hb : b ∈ l) (hid : a.id = b.id) : a = b := by
  induction l with
  | nil => cases ha
  | cons x xs ih =>
    rcases List.pairwise_cons.mp hp with ⟨hx, hxs⟩
    rcases List.mem_cons.mp ha with rfl | ha'
    · rcases List.mem_cons.mp hb with rfl | hb'
      · rfl
      · exact absurd hid (hx b hb')
    · rcases List.mem_cons.mp hb with rfl | hb'
      · exact absurd hid.symm (hx a ha')
      · exact ih hxs ha' hb'

/-- Integrity invariants guaranteed by the persistence layer: stored
joke ids are below the autoincrement counter and pairwise distinct. -/
def StateWF (st : State) : Prop :=
  (∀ j ∈ st.jokes, j.id < st.nextJokeId)
  ∧ st.jokes.Pairwise (fun a b => a.id ≠ b.id)

/-- C9: a successful update changes only the value field — ids, external
ids, categories, creation times and owners are untouched and rows are
neither added nor removed; and no operation of the system ever changes
the owner of a stored joke whose owner is set. -/
theorem C9_update_frame_owner_stable (hash : String → String)
    (checkHash : String → String → Bool) (st : State) (tok : Token)
    (i : Nat) (v : Option String) (hwf : StateWF st) :
    ((update_joke st tok i v).resp.status = 200 →
      ((update_joke st tok i v).st.jokes.length = st.jokes.length
        ∧ ∀ j ∈ st.jokes, ∃ j' ∈ (update_joke st tok i v).st.jokes,
            j'.id = j.id ∧ j'.joke_id = j.joke_id ∧ j'.category = j.category
              ∧ j'.created_at = j.created_at ∧ j'.user_id = j.user_id
              ∧ (¬j.id = i → j' = j)))
    ∧ (∀ (req : Request) (j : Joke) (o : Nat), j ∈ st.jokes → j.user_id = some o →
        ∀ j' ∈ (handle hash checkHash st req).st.jokes, j'.id = j.id →
          j'.user_id = some o) := by
  constructor
  · intro hs
    cases tok with
    | invalid => simp [update_joke, withJwt, jwtErrorResponse] at hs
    | valid sub =>
      cases hq : queryGetJoke st i with
      | none => simp [update_joke, withJwt, hq] at hs
      | some j =>
        cases hcu : current_user st sub with
        | none => simp [update_joke, withJwt, hq, hcu, abortResponse] at hs
        | some user =>
          by_cases ho : (j.user_id.isSome && !(j.user_id == some user.id)) = true
          · simp [update_joke, withJwt, hq, hcu, ho] at hs
          · by_cases hfp : fieldPresent v = true
            · have hjokes : (update_joke st (Token.valid sub) i v).st.jokes
                  = st.jokes.map (fun jj => if jj.id == i then { jj with value := v } else jj) := by
                simp [update_joke, withJwt, hq, hcu, ho, hfp]
              rw [hjokes]
              refine ⟨by simp, ?_⟩
              intro a ha
              refine ⟨(if a.id == i then { a with value := v } else a),
                List.mem_map_of_mem _ ha, ?_⟩
              by_cases hai : (a.id == i) = true
              · rw [if_pos hai]
                exact ⟨rfl, rfl, rfl, rfl, rfl,
                  fun hne => absurd (by simpa using hai : a.id = i) hne⟩
              · rw [if_neg hai]
                exact ⟨rfl, rfl, rfl, rfl, rfl, fun _ => rfl⟩
            · simp [update_joke, withJwt, hq, hcu, ho, hfp, missingResponse] at hs
  · intro req j o hj ho j' hj' hid
    rcases handle_jokes_shape hash checkHash st req with hsh | ⟨jnew, hnid, hsh⟩
      | ⟨ii, vv, hsh⟩ | ⟨ii, hsh⟩
    · rw [hsh] at hj'
      rw [eq_of_mem_of_id_eq hwf.2 hj' hj hid]
      exact ho
    · rw [hsh] at hj'
      rcases List.mem_append.mp hj' with h | h
      · rw [eq_of_mem_of_id_eq hwf.2 h hj hid]
        exact ho
      · have hj'eq : j' = jnew := by simpa using h
        exfalso
        have hlt := hwf.1 j hj
        rw [hj'eq, hnid] at hid
        omega
    · rw [hsh] at hj'
      rcases List.mem_map.mp hj' with ⟨a, ha, hfa⟩
      have hpair : j'.user_id = a.user_id ∧ j'.id = a.id := by
        by_cases hai : (a.id == ii) = true
        · rw [if_pos hai] at hfa
          rw [← hfa]
          exact ⟨rfl, rfl⟩
        · rw [if_neg hai] at hfa
          rw [← hfa]
          exact ⟨rfl, rfl⟩
      have haj : a = j := eq_of_mem_of_id_eq hwf.2 ha hj (hpair.2.symm.trans hid)
      rw [hpair.1, haj]
      exact ho
    · rw [hsh] at hj'
      rw [eq_of_mem_of_id_eq hwf.2 (List.mem_filter.mp hj').1 hj hid]
      exact ho

/-- Witness for C9: updating the stored joke keeps the table size, and
the owner of the stored joke survives an (unauthenticated, rejected)
delete attempt. -/
theorem C9_update_frame_owner_stable_witness :
    (update_joke stAliceOwned (Token.valid "1") 1 (some "x")).st.jokes.length
      = stAliceOwned.jokes.length
    ∧ jokeOwned1.user_id = some 1 := by
  have h := C9_update_frame_owner_stable (fun q => q) (fun h q => q == h)
    stAliceOwned (Token.valid "1") 1 (some "x") ⟨by decide, by decide⟩
  refine ⟨(h.1 (by decide)).1, ?_⟩
  exact h.2 (Request.delete_joke Token.invalid 1) jokeOwned1 1 (by decide) rfl
    jokeOwned1 (by decide) rfl

end GetChucked
